import Mathlib

/-!
Verification of the factorio-mod-downloader core engine.

This file contains a shallow embedding, in Lean 4, of the core of the
factorio-mod-downloader repository:

* `src/factorio_mod_downloader/core/dependency_resolver.py`
  (`DependencyResolver._resolve_recursive`, `resolve_dependencies`,
  `get_download_list`),
* `src/factorio_mod_downloader/core/file_downloader.py`
  (`FileDownloader._download_with_retry`, `download_file`),
* `src/factorio_mod_downloader/infrastructure/errors.py`
  (`is_retryable_error`, `categorize_error`, the error classes),
* `src/factorio_mod_downloader/infrastructure/recovery.py`
  (`RecoveryManager._get_partial_path`, `finalize_download`),
* `src/factorio_mod_downloader/core/downloader.py`
  (`CoreDownloader.download_mod`, the per-mod loop),

together with theorems about the dependency-ordering, duplicate-handling,
cycle-handling, retry and skip-if-present behaviour of those functions.

The remote mod portal (Selenium page fetching plus HTML parsing in
`mod_info_fetcher.py`) is modelled as a finite table `ModPortal`: a URL that
is absent from `pages` models `get_page_source` raising (network failure) or
`get_mod_name` / `get_latest_version` raising `ParsingError`; an entry in
`deps` models the list returned by `get_required_dependencies` (which
returns `[]` both when a mod has no dependencies and when fetching them
fails, because it catches its own exceptions).
-/

namespace FactorioModDownloader

/-! ## Data model (`mod_info_fetcher.py`, `dependency_resolver.py`) -/

/-- API constant `BASE_DOWNLOAD_URL` from `dependency_resolver.py` line 11. -/
def BASE_DOWNLOAD_URL : String := "https://mods-storage.re146.dev"

/-- `RESERVED_DEPENDENCIES = {"space-age"}` from `dependency_resolver.py`
line 14 (a `set` in Python; modelled as a list used only through
membership). -/
def RESERVED_DEPENDENCIES : List String := ["space-age"]

/-- `ModInfo` dataclass from `mod_info_fetcher.py` lines 27-35. -/
structure ModInfo where
  name : String
  version : String
  url : String
  download_url : String
  size : Option Nat
  is_optional : Bool
deriving DecidableEq

/-- `DependencyTree` dataclass from `dependency_resolver.py` lines 17-21:
a root `ModInfo` plus a list of child subtrees. -/
inductive DependencyTree where
  | mk (root : ModInfo) (dependencies : List DependencyTree)

/-- Root `ModInfo` of a `DependencyTree` (the `tree.root` field access). -/
def DependencyTree.rootInfo : DependencyTree → ModInfo
  | .mk r _ => r

/-- Name of the root mod of a tree (`tree.root.name`). -/
def DependencyTree.rootName : DependencyTree → String
  | .mk r _ => r.name

/-- Child subtrees of a tree (the `tree.dependencies` field access). -/
def DependencyTree.children : DependencyTree → List DependencyTree
  | .mk _ ds => ds

/-- One successfully fetched and parsed mod page: the values returned by
`get_mod_name` and `get_latest_version` for that page. -/
structure PageData where
  name : String
  version : String
deriving DecidableEq

/-- The dependency lists scraped by `get_required_dependencies(mod_name,
include_optional)` for one mod name: required dependencies first, optional
ones appended only when requested (`mod_info_fetcher.py` lines 226-242).
Each entry is a `(dep_name, dep_url)` pair, exactly as the Python code
returns them. -/
structure DepsData where
  required : List (String × String)
  optionalDeps : List (String × String)
deriving DecidableEq

/-- The abstract mod portal consumed by the resolver: `pages` maps a URL to
the parse result of its page (absence models `get_page_source` or the
`get_mod_name` / `get_latest_version` parsers raising), and `deps` maps a
mod name to its scraped dependency lists (absence models
`get_required_dependencies` returning `[]`, which it also does on any
internal error). -/
structure ModPortal where
  pages : List (String × PageData)
  deps : List (String × DepsData)

/-- `ModInfoFetcher.get_required_dependencies(mod_name, include_optional)`
(`mod_info_fetcher.py` lines 202-246): required dependencies, with the
optional ones appended when `include_optional` is true; `[]` when nothing
is found or an error occurs. -/
def get_required_dependencies (portal : ModPortal) (mod_name : String)
    (include_optional : Bool) : List (String × String) :=
  match portal.deps.lookup mod_name with
  | none => []
  | some d => d.required ++ (if include_optional then d.optionalDeps else [])

/-- State threaded through one `resolve_dependencies` call:
`visited` is `self.analyzed_mods` (a `set` of URLs, modelled as a list used
through membership), `fetches` is a ghost log of the URLs passed to
`get_page_source` at `dependency_resolver.py` line 99 (it records network
page loads and lets us state that no URL is fetched twice), and `fuelOut`
is a ghost flag set only by the fuel-exhaustion branch of the embedding,
which theorem `resolveRec_no_fuelOut` below proves unreachable at the fuel
used by `resolve_dependencies` — Python's recursion has no such branch. -/
structure ResolveState where
  visited : List String
  fetches : List String
  fuelOut : Bool
deriving DecidableEq

/-- The `for dep_name, dep_url in dependencies:` loop of
`DependencyResolver._resolve_recursive` (`dependency_resolver.py` lines
160-179), abstracted over the recursive call `recurse` (which is
`self._resolve_recursive(dep_url, include_optional, is_optional=False)` at
one less fuel). A dependency URL already in `analyzed_mods` is skipped
(line 162); a recursive result of `None` (reserved or already-analyzed mod)
is filtered out (line 170); an exception from the recursive call is caught,
logged and the loop continues (lines 172-178) — the mutated
`analyzed_mods` state survives the exception, which the returned
`ResolveState` reflects. -/
def resolveDepsAux
    (recurse : String → ResolveState → Except String (Option DependencyTree) × ResolveState) :
    List (String × String) → ResolveState → List DependencyTree × ResolveState
  | [], st => ([], st)
  | (_, dep_url) :: rest, st =>
    if dep_url ∈ st.visited then
      resolveDepsAux recurse rest st
    else
      match recurse dep_url st with
      | (.ok (some t), st') =>
        let res := resolveDepsAux recurse rest st'
        (t :: res.1, res.2)
      | (.ok none, st') => resolveDepsAux recurse rest st'
      | (.error _, st') => resolveDepsAux recurse rest st'

/-- The `ModInfo` built by `_resolve_recursive` at `dependency_resolver.py`
lines 126-138: the download URL is templated from the storage endpoint, the
mod name, the latest version and the anti-cache token, and `size` is left
unset. -/
def resolvedModInfo (anticache : String) (pd : PageData) (mod_url : String)
    (is_opt : Bool) : ModInfo :=
  { name := pd.name
    version := pd.version
    url := mod_url
    download_url :=
      BASE_DOWNLOAD_URL ++ "/" ++ pd.name ++ "/" ++ pd.version ++
        ".zip?anticache=" ++ anticache
    size := none
    is_optional := is_opt }

/-- `DependencyResolver._resolve_recursive(mod_url, include_optional,
is_optional)` (`dependency_resolver.py` lines 70-180). The `Nat` argument
is fuel for the recursion; Python's recursion needs none because every
recursive step first adds a fresh URL from the portal to `analyzed_mods`,
and theorem `resolveRec_no_fuelOut` proves the fuel branch unreachable at
the fuel `resolve_dependencies` supplies. Step by step:

* lines 90-93: a URL already in `analyzed_mods` returns the `None`
  placeholder (`.ok none`);
* line 95: the URL is added to `analyzed_mods` before anything is fetched;
* lines 99-102: `get_page_source` — a URL without a page raises (modelled
  as `.error`; the ghost `fetches` log records the attempt);
* lines 105-109: empty mod name or version raises;
* lines 112-117: a reserved mod name returns `None` (not an error);
* lines 126-138: the download URL is templated from name, version and the
  anti-cache token, and the `ModInfo` is built;
* lines 141-149: dependencies are fetched; an empty list returns a leaf;
* lines 160-180: otherwise the dependency loop `resolveDepsAux` runs and
  the node is built from the collected subtrees. -/
def resolveRec (portal : ModPortal) (anticache : String) (include_optional : Bool) :
    Nat → String → Bool → ResolveState → Except String (Option DependencyTree) × ResolveState
  | 0 => fun _ _ st => (.error "recursion limit", { st with fuelOut := true })
  | fuel + 1 => fun mod_url is_opt st =>
    if mod_url ∈ st.visited then
      (.ok none, st)
    else
      let st1 : ResolveState := { st with visited := mod_url :: st.visited }
      let st2 : ResolveState := { st1 with fetches := st1.fetches ++ [mod_url] }
      match portal.pages.lookup mod_url with
      | none => (.error ("Failed to load page: " ++ mod_url), st2)
      | some pd =>
        if pd.name = "" ∨ pd.version = "" then
          (.error ("Could not get mod info for " ++ mod_url), st2)
        else if pd.name ∈ RESERVED_DEPENDENCIES then
          (.ok none, st2)
        else
          let mod_info : ModInfo := resolvedModInfo anticache pd mod_url is_opt
          let dependencies := get_required_dependencies portal pd.name include_optional
          if dependencies.isEmpty then
            (.ok (some (.mk mod_info [])), st2)
          else
            let res :=
              resolveDepsAux
                (fun u s => resolveRec portal anticache include_optional fuel u false s)
                dependencies st2
            (.ok (some (.mk mod_info res.1)), res.2)

/-- `DependencyResolver.resolve_dependencies(mod_url, include_optional)`
(`dependency_resolver.py` lines 43-68): clears `analyzed_mods` (fresh
`ResolveState`) and resolves recursively. The fuel `portal.pages.length + 1`
is enough for any input: every recursion step consumes a distinct portal
URL (theorem `resolveRec_no_fuelOut`). -/
def resolve_dependencies (portal : ModPortal) (anticache : String)
    (include_optional : Bool) (mod_url : String) :
    Except String (Option DependencyTree) × ResolveState :=
  resolveRec portal anticache include_optional (portal.pages.length + 1) mod_url false
    { visited := [], fetches := [], fuelOut := false }

/-! ## Flattening (`DependencyResolver.get_download_list`) -/

mutual

/-- The `_traverse` closure of `get_download_list` (`dependency_resolver.py`
lines 200-212), threading the `(download_list, seen_mods)` state: all child
subtrees are traversed first, then the node's own `ModInfo` is appended if
its name has not been seen. (`seen_mods` is a Python `set`, modelled as a
list used through membership; the `if not node` guard at line 202 is
unreachable because `None` results are filtered out before being stored in
`dependencies`.) -/
def traverseTree : DependencyTree → List ModInfo × List String → List ModInfo × List String
  | .mk r ds, st =>
    let st1 := traverseList ds st
    if r.name ∈ st1.2 then st1
    else (st1.1 ++ [r], r.name :: st1.2)

/-- Traversal of a list of sibling subtrees, in order (the `for dep in
node.dependencies` loop at `dependency_resolver.py` lines 206-207). -/
def traverseList : List DependencyTree → List ModInfo × List String → List ModInfo × List String
  | [], st => st
  | t :: ts, st => traverseList ts (traverseTree t st)

end

/-- `DependencyResolver.get_download_list(tree)` (`dependency_resolver.py`
lines 182-215): `None` (`Option.none`) flattens to `[]`, otherwise the
post-order traversal starting from empty `download_list` and `seen_mods`. -/
def get_download_list : Option DependencyTree → List ModInfo
  | none => []
  | some t => (traverseTree t ([], [])).1

/-- The names in a download list, in order. -/
def downloadNames (t : Option DependencyTree) : List String :=
  (get_download_list t).map ModInfo.name

/-! ## Specification helpers for the tree claims

`postOrder` is the plain post-order node enumeration of a tree (no
deduplication); `hasEdge t p c` says some node named `p` in `t` has a child
named `c` (i.e. mod `p` depends on mod `c` in the resolved tree). These are
stated from the spec's description of the flatten contract and are related
to `get_download_list` by theorems below. -/

mutual

def postOrder : DependencyTree → List ModInfo
  | .mk r ds => postOrderList ds ++ [r]

def postOrderList : List DependencyTree → List ModInfo
  | [] => []
  | t :: ts => postOrder t ++ postOrderList ts

end

/-- The node names of a tree in post-order. -/
def postNames (t : DependencyTree) : List String :=
  (postOrder t).map ModInfo.name

mutual

def hasEdge : DependencyTree → String → String → Bool
  | .mk r ds, p, c =>
    (r.name == p && ds.any (fun d => d.rootName == c)) || hasEdgeList ds p c

def hasEdgeList : List DependencyTree → String → String → Bool
  | [], _, _ => false
  | t :: ts, p, c => hasEdge t p c || hasEdgeList ts p c

end

/-! ## Error classification (`infrastructure/errors.py`) -/

/-- `ErrorCategory` enum (`errors.py` lines 11-16). -/
inductive ErrorCategory where
  | network
  | validation
  | filesystem
  | parsing
deriving DecidableEq

/-- A Python exception value as far as the downloader's `except` clauses and
`errors.py` can observe it: either a `ModDownloaderError` (with its
`category`, `retryable` and `suggestion` attributes, `errors.py` lines
19-52) or an instance of one of the concrete exception classes the code
dispatches on. `requests.exceptions.RequestException` subclasses `IOError`,
which in Python 3 is an alias of `OSError`, so every
`requests.exceptions.*` value — and the builtin `TimeoutError` and
`ConnectionError` — is an `OSError` instance (see `isOSErrorInstance`). -/
inductive PyExc where
  | modError (category : ErrorCategory) (retryable : Bool) (message : String)
      (suggestion : Option String)
  | permissionError (message : String)
  | reqConnectionError (message : String)
  | reqTimeout (message : String)
  | reqChunkedEncodingError (message : String)
  | reqHTTPError (message : String)
  | builtinTimeoutError (message : String)
  | builtinConnectionError (message : String)
  | otherOSError (message : String)
  | valueError (message : String)
  | typeError (message : String)
  | otherException (message : String)
deriving DecidableEq

/-- Python `str(e)`: `ModDownloaderError.__str__` returns `self.message`
(`errors.py` lines 50-52); for other exceptions the constructor message. -/
def PyExc.str : PyExc → String
  | .modError _ _ m _ => m
  | .permissionError m => m
  | .reqConnectionError m => m
  | .reqTimeout m => m
  | .reqChunkedEncodingError m => m
  | .reqHTTPError m => m
  | .builtinTimeoutError m => m
  | .builtinConnectionError m => m
  | .otherOSError m => m
  | .valueError m => m
  | .typeError m => m
  | .otherException m => m

/-- `isinstance(e, (PermissionError, OSError))` — the guard of the first
`except` clause of `_download_with_retry` (`file_downloader.py` line 218).
`PermissionError`, the builtin `TimeoutError` and `ConnectionError`, and
every `requests.exceptions.RequestException` subclass (they inherit from
`IOError`, the Python 3 alias of `OSError`) all satisfy it;
`ModDownloaderError` subclasses only `Exception` and does not. -/
def isOSErrorInstance : PyExc → Bool
  | .modError _ _ _ _ => false
  | .permissionError _ => true
  | .reqConnectionError _ => true
  | .reqTimeout _ => true
  | .reqChunkedEncodingError _ => true
  | .reqHTTPError _ => true
  | .builtinTimeoutError _ => true
  | .builtinConnectionError _ => true
  | .otherOSError _ => true
  | .valueError _ => false
  | .typeError _ => false
  | .otherException _ => false

/-- `NetworkError` constructor (`errors.py` lines 55-73): category
`NETWORK`, `retryable=True`, default suggestion. -/
def NetworkError (message : String) (suggestion : Option String) : PyExc :=
  .modError .network true message
    (some (suggestion.getD "Check your internet connection and try again"))

/-- `ValidationError` constructor (`errors.py` lines 76-94): category
`VALIDATION`, `retryable=False`. -/
def ValidationError (message : String) (suggestion : Option String) : PyExc :=
  .modError .validation false message suggestion

/-- `FileSystemError` constructor (`errors.py` lines 97-115): category
`FILESYSTEM`, `retryable=False`. -/
def FileSystemError (message : String) (suggestion : Option String) : PyExc :=
  .modError .filesystem false message suggestion

/-- `ParsingError` constructor (`errors.py` lines 118-136): category
`PARSING`, `retryable=True`, default suggestion. Its docstring says these
errors "are retryable once after a delay", but the class records only the
boolean `retryable=True` — nothing limits the number of retries. -/
def ParsingError (message : String) (suggestion : Option String) : PyExc :=
  .modError .parsing true message
    (some (suggestion.getD "The mod page might be temporarily unavailable. Try again later."))

/-- `is_retryable_error(error)` (`errors.py` lines 139-162): a
`ModDownloaderError`'s own `retryable` flag, else membership in the listed
network exception classes. -/
def is_retryable_error : PyExc → Bool
  | .modError _ retryable _ _ => retryable
  | .reqConnectionError _ => true
  | .reqTimeout _ => true
  | .reqChunkedEncodingError _ => true
  | .builtinTimeoutError _ => true
  | .builtinConnectionError _ => true
  | _ => false

/-- `categorize_error(error)` (`errors.py` lines 191-219): a
`ModDownloaderError`'s own category; then the network classes (checked
before the `OSError` test, so they categorize as `NETWORK` even though they
are `OSError` instances); then `(PermissionError, OSError, IOError)` as
`FILESYSTEM`; then `(ValueError, TypeError)` as `VALIDATION`; default
`PARSING`. -/
def categorize_error : PyExc → ErrorCategory
  | .modError category _ _ _ => category
  | .reqConnectionError _ => .network
  | .reqTimeout _ => .network
  | .reqChunkedEncodingError _ => .network
  | .builtinTimeoutError _ => .network
  | .builtinConnectionError _ => .network
  | .permissionError _ => .filesystem
  | .reqHTTPError _ => .filesystem
  | .otherOSError _ => .filesystem
  | .valueError _ => .validation
  | .typeError _ => .validation
  | .otherException _ => .parsing

/-! ## Retry loop (`FileDownloader._download_with_retry`) -/

/-- Observable outcome of the retry loop of `_download_with_retry`
(`file_downloader.py` lines 115-266): the returned `success` / `error`
dictionary plus a ghost trace of how many loop iterations ran (`attempts`)
and which `time.sleep(self.config.retry_delay)` calls happened (`sleeps`,
in order, recording the delay slept). -/
structure RetryTrace where
  success : Bool
  error : Option String
  attempts : Nat
  sleeps : List Nat
deriving DecidableEq

/-- The `for attempt in range(1, max_retries + 1)` loop of
`_download_with_retry` (`file_downloader.py` lines 138-266), one case per
control path. The attempt body (lines 139-216: resume check, HTTP request,
chunked writing) is abstracted as `outcome attempt`: `none` means the body
reached `return {'success': True, ...}` (line 216), `some e` means it
raised the exception `e`. The `remaining` argument counts loop iterations
left (`max_retries` at entry); `attemptsDone` iterations have run, so the
current iteration is attempt `attemptsDone + 1`, matching Python's
`attempt` variable. Control paths:

* success (line 216): return success;
* `except (PermissionError, OSError)` (lines 218-230): a `FILESYSTEM`
  categorization returns failure at once; otherwise `last_error = e` and
  the loop continues — with NO sleep, because this clause falls through
  past the retry-delay code of the second clause;
* `except Exception` (lines 232-262): a non-retryable error returns
  failure at once; a retryable one sleeps `retry_delay` and continues if
  attempts remain, else returns failure with this attempt's message;
* loop exhausted (lines 264-266): failure with `str(last_error)`, or
  `'Max retries exceeded'` when no attempt ran. -/
def retryGo (max_retries retry_delay : Nat) (outcome : Nat → Option PyExc) :
    Nat → Nat → Option PyExc → List Nat → RetryTrace
  | 0, attemptsDone, last_error, sleeps =>
    { success := false
      error := some (match last_error with | some e => e.str | none => "Max retries exceeded")
      attempts := attemptsDone
      sleeps := sleeps }
  | remaining + 1, attemptsDone, _last_error, sleeps =>
    let attempt := attemptsDone + 1
    match outcome attempt with
    | none =>
      { success := true, error := none, attempts := attempt, sleeps := sleeps }
    | some e =>
      if isOSErrorInstance e then
        if categorize_error e = .filesystem then
          { success := false, error := some ("Filesystem error: " ++ e.str),
            attempts := attempt, sleeps := sleeps }
        else
          retryGo max_retries retry_delay outcome remaining attempt (some e) sleeps
      else if !(is_retryable_error e) then
        { success := false, error := some e.str, attempts := attempt, sleeps := sleeps }
      else if attempt < max_retries then
        retryGo max_retries retry_delay outcome remaining attempt (some e)
          (sleeps ++ [retry_delay])
      else
        { success := false, error := some e.str, attempts := attempt, sleeps := sleeps }

/-- `FileDownloader._download_with_retry(url, output_path, ..., max_retries)`
(`file_downloader.py` lines 115-266), as the retry loop over the abstracted
attempt body. -/
def download_with_retry (max_retries retry_delay : Nat)
    (outcome : Nat → Option PyExc) : RetryTrace :=
  retryGo max_retries retry_delay outcome max_retries 0 none []

/-- The `success` / `error` part of `DownloadFileResult`
(`file_downloader.py` lines 20-27; `size` and `duration` are wall-clock and
filesystem measurements, not modelled). -/
structure DownloadFileResult where
  success : Bool
  error : Option String
deriving DecidableEq

/-- `FileDownloader.download_file` (`file_downloader.py` lines 52-113):
runs `_download_with_retry` with the configured `max_retries` and wraps the
result dictionary into a `DownloadFileResult`. -/
def download_file (max_retries retry_delay : Nat)
    (outcome : Nat → Option PyExc) : DownloadFileResult :=
  let r := download_with_retry max_retries retry_delay outcome
  if r.success then { success := true, error := none }
  else { success := false, error := r.error }

/-! ## Partial files (`infrastructure/recovery.py` and the write path) -/

/-- `RecoveryManager.PART_EXTENSION` (`recovery.py` line 20). -/
def PART_EXTENSION : String := ".part"

/-- `RecoveryManager._get_partial_path(file_path)` (`recovery.py` lines
32-41): the target path with `.part` appended. -/
def get_partial_path (file_path : String) : String :=
  file_path ++ PART_EXTENSION

/-- A filesystem operation on artifact files, for tracing which paths the
transfer code touches. -/
inductive FsOp where
  | openWrite (path : String) (append : Bool)
  | removeFile (path : String)
  | renameFile (src dst : String)
deriving DecidableEq

/-- The artifact-file operations of one attempt body of
`_download_with_retry` (`file_downloader.py` lines 175-216): line 176
chooses mode `'ab'` (append) exactly when `resume_position > 0`, and line
189 opens `output_path` itself — the final destination path — for writing;
every chunk (lines 193-213) is written to that handle, and the success
return at line 216 performs no further file operation: no `.part` path is
ever opened and no rename ever happens in `_download_with_retry` (lines
138-266 contain no rename; `RecoveryManager.finalize_download` and
`create_partial_file` have no callers anywhere in the repository). -/
def attemptFileOps (output_path : String) (resume_position : Nat) : List FsOp :=
  [FsOp.openWrite output_path (decide (0 < resume_position))]

/-- `RecoveryManager.finalize_download(partial_path, final_path)`
(`recovery.py` lines 222-261): removes a stale final file if present, then
renames the partial file onto the final path. (This method is defined but
never invoked by `FileDownloader` or `CoreDownloader`.) -/
def finalize_download (partial_path final_path : String) (final_exists : Bool) : List FsOp :=
  (if final_exists then [FsOp.removeFile final_path] else []) ++
    [FsOp.renameFile partial_path final_path]

/-! ## Orchestrator (`core/downloader.py`, `CoreDownloader.download_mod`) -/

/-- The `success` / `size` / `error` of one `file_downloader.download_file`
call as `download_mod` consumes it (`downloader.py` lines 152-170). -/
structure TransferResult where
  success : Bool
  size : Nat
  error : Option String
deriving DecidableEq

/-- Persistent orchestrator state: `downloadedMods` is the instance
attribute `self.downloaded_mods` (`downloader.py` line 77, a `set` kept
across `download_mod` calls on the same `CoreDownloader`), and `files` is
the set of paths for which `os.path.exists` is true. A successful transfer
adds its final path to `files`; a failed transfer may leave partial bytes
at the final path (see the C8 analysis) but that is not needed by the
claims settled on this definition, which concern mods whose file already
exists or whose transfer succeeds. -/
structure OrchestratorState where
  downloadedMods : List String
  files : List String
deriving DecidableEq

/-- Per-call accumulators of `download_mod` (`downloader.py` lines 88-91):
the `downloaded` and `failed` lists and `total_size`, plus a ghost list
`transfers` of the download URLs actually passed to
`self.file_downloader.download_file` (the network transfers performed). -/
structure RunAccum where
  downloaded : List String
  failed : List (String × String)
  totalSize : Nat
  transfers : List String
deriving DecidableEq

/-- `f"{mod_info.name}_{mod_info.version}.zip"` (`downloader.py` line 125). -/
def fileNameOf (m : ModInfo) : String :=
  m.name ++ "_" ++ m.version ++ ".zip"

/-- `os.path.join(self.output_path, file_name)` (`downloader.py` line 132),
for the POSIX case relevant here. -/
def joinPath (dir name : String) : String :=
  dir ++ "/" ++ name

/-- One iteration of the `for mod_info in download_list:` loop of
`CoreDownloader.download_mod` (`downloader.py` lines 124-170):

* lines 128-130: a file name already in `self.downloaded_mods` is skipped
  with `continue` — nothing is appended to `downloaded`;
* lines 135-139: if the file already exists on disk it is recorded in
  `self.downloaded_mods` and appended to `downloaded` (counting toward
  success) without any transfer;
* lines 152-170: otherwise `download_file` runs; on success the file name
  is recorded and `total_size` grows by the transferred size, on failure
  `(mod_name, error)` is appended to `failed`. -/
def processMod (transfer : String → TransferResult) (output_path : String) :
    OrchestratorState × RunAccum → ModInfo → OrchestratorState × RunAccum
  | (st, acc), m =>
    let file_name := fileNameOf m
    if file_name ∈ st.downloadedMods then
      (st, acc)
    else
      let file_path := joinPath output_path file_name
      if file_path ∈ st.files then
        ({ st with downloadedMods := file_name :: st.downloadedMods },
         { acc with downloaded := acc.downloaded ++ [file_name] })
      else
        let r := transfer m.download_url
        let acc' := { acc with transfers := acc.transfers ++ [m.download_url] }
        if r.success then
          ({ st with downloadedMods := file_name :: st.downloadedMods,
                     files := st.files ++ [file_path] },
           { acc' with downloaded := acc'.downloaded ++ [file_name],
                       totalSize := acc'.totalSize + r.size })
        else
          (st, { acc' with failed := acc'.failed ++ [(m.name, r.error.getD "Unknown error")] })

/-- The whole download loop of `CoreDownloader.download_mod` over an
already-resolved download list (`downloader.py` lines 124-170), returning
the final orchestrator state and the per-call accumulators. The
`transfer` argument abstracts `file_downloader.download_file` keyed by
download URL. -/
def download_mod (transfer : String → TransferResult) (output_path : String)
    (download_list : List ModInfo) (st : OrchestratorState) :
    OrchestratorState × RunAccum :=
  download_list.foldl (processMod transfer output_path)
    (st, { downloaded := [], failed := [], totalSize := 0, transfers := [] })

/-- The reported part of `DownloadResult` (`downloader.py` lines 17-24 and
172-181): `success` is `len(failed) == 0`; `duration` is wall-clock and not
modelled. -/
structure DownloadResult where
  success : Bool
  downloaded_mods : List String
  failed_mods : List (String × String)
  total_size : Nat
deriving DecidableEq

/-- Assembly of the `DownloadResult` from the loop accumulators
(`downloader.py` lines 172-181). -/
def downloadResult (acc : RunAccum) : DownloadResult :=
  { success := acc.failed.isEmpty
    downloaded_mods := acc.downloaded
    failed_mods := acc.failed
    total_size := acc.totalSize }

/-! ## Unfolding equations for the mutual tree functions -/

@[simp] lemma postOrder_mk (r : ModInfo) (ds : List DependencyTree) :
    postOrder (.mk r ds) = postOrderList ds ++ [r] := by
  simp [postOrder]

@[simp] lemma postOrderList_nil : postOrderList [] = [] := by
  simp [postOrderList]

@[simp] lemma postOrderList_cons (t : DependencyTree) (ts : List DependencyTree) :
    postOrderList (t :: ts) = postOrder t ++ postOrderList ts := by
  simp [postOrderList]

@[simp] lemma traverseTree_mk (r : ModInfo) (ds : List DependencyTree)
    (st : List ModInfo × List String) :
    traverseTree (.mk r ds) st =
      (if r.name ∈ (traverseList ds st).2 then traverseList ds st
       else ((traverseList ds st).1 ++ [r], r.name :: (traverseList ds st).2)) := by
  simp [traverseTree]

@[simp] lemma traverseList_nil (st : List ModInfo × List String) :
    traverseList [] st = st := by
  simp [traverseList]

@[simp] lemma traverseList_cons (t : DependencyTree) (ts : List DependencyTree)
    (st : List ModInfo × List String) :
    traverseList (t :: ts) st = traverseList ts (traverseTree t st) := by
  simp [traverseList]

@[simp] lemma hasEdge_mk (r : ModInfo) (ds : List DependencyTree) (p c : String) :
    hasEdge (.mk r ds) p c =
      ((r.name == p && ds.any (fun d => d.rootName == c)) || hasEdgeList ds p c) := by
  simp [hasEdge]

@[simp] lemma hasEdgeList_nil (p c : String) : hasEdgeList [] p c = false := by
  simp [hasEdgeList]

@[simp] lemma hasEdgeList_cons (t : DependencyTree) (ts : List DependencyTree) (p c : String) :
    hasEdgeList (t :: ts) p c = (hasEdge t p c || hasEdgeList ts p c) := by
  simp [hasEdgeList]

lemma sizeOf_children_lt (r : ModInfo) (ds : List DependencyTree) :
    sizeOf ds < sizeOf (DependencyTree.mk r ds) := by
  cases r
  simp only [DependencyTree.mk.sizeOf_spec]
  omega

/-! ## Invariants of the flattening traversal -/

/-- Precondition threaded through `_traverse`: the emitted names are
distinct and every emitted name is recorded in `seen_mods`. -/
def TraversePre (st : List ModInfo × List String) : Prop :=
  (st.1.map ModInfo.name).Nodup ∧ ∀ m ∈ st.1, m.name ∈ st.2

/-- Postcondition of `_traverse` on a node whose post-order enumeration is
`post`: emitted entries come from the input or from the subtree, `seen_mods`
only grows, and the precondition is preserved. -/
def TraversePost (stIn out : List ModInfo × List String) (post : List ModInfo) : Prop :=
  (∀ m ∈ out.1, m ∈ stIn.1 ∨ m ∈ post) ∧
  (∀ x ∈ stIn.2, x ∈ out.2) ∧
  TraversePre out

lemma traverse_main : ∀ n : Nat,
    (∀ t : DependencyTree, sizeOf t ≤ n → ∀ st, TraversePre st →
      TraversePost st (traverseTree t st) (postOrder t)) ∧
    (∀ ds : List DependencyTree, sizeOf ds ≤ n → ∀ st, TraversePre st →
      TraversePost st (traverseList ds st) (postOrderList ds)) := by
  intro n
  induction n using Nat.strong_induction_on with
  | _ n ih =>
    constructor
    · intro t hle st hpre
      obtain ⟨r, ds⟩ := t
      have hds : sizeOf ds < n := by
        have := sizeOf_children_lt r ds
        omega
      have hlist := (ih (sizeOf ds) hds).2 ds le_rfl st hpre
      obtain ⟨hsrc, hmono, hnodup, hrec⟩ := hlist
      by_cases hmem : r.name ∈ (traverseList ds st).2
      · refine ⟨?_, ?_, ?_, ?_⟩ <;> simp only [traverseTree_mk, if_pos hmem]
        · intro m hm
          rcases hsrc m hm with h | h
          · exact Or.inl h
          · exact Or.inr (by simp [List.mem_append]; exact Or.inl h)
        · exact hmono
        · exact hnodup
        · exact hrec
      · refine ⟨?_, ?_, ?_, ?_⟩ <;> simp only [traverseTree_mk, if_neg hmem]
        · intro m hm
          rcases List.mem_append.1 hm with h | h
          · rcases hsrc m h with h' | h'
            · exact Or.inl h'
            · exact Or.inr (by simp [List.mem_append]; exact Or.inl h')
          · refine Or.inr ?_
            simp only [List.mem_singleton] at h
            subst h
            simp [List.mem_append]
        · intro x hx
          exact List.mem_cons_of_mem _ (hmono x hx)
        · simp only [List.map_append, List.map_cons, List.map_nil]
          refine List.Nodup.append hnodup (List.nodup_singleton _) ?_
          intro x hx hx'
          simp only [List.mem_singleton] at hx'
          subst hx'
          rcases List.mem_map.1 hx with ⟨m, hm, hname⟩
          exact hmem (hname ▸ hrec m hm)
        · intro m hm
          rcases List.mem_append.1 hm with h | h
          · exact List.mem_cons_of_mem _ (hrec m h)
          · simp only [List.mem_singleton] at h
            subst h
            exact List.mem_cons_self _ _
    · intro ds hle st hpre
      cases ds with
      | nil =>
        refine ⟨?_, ?_, hpre⟩ <;> simp only [traverseList_nil]
        · intro m hm; exact Or.inl hm
        · intro x hx; exact hx
      | cons t ts =>
        have hsz : sizeOf t < n ∧ sizeOf ts < n := by
          have : sizeOf (t :: ts) = 1 + sizeOf t + sizeOf ts := by
            simp [List.cons.sizeOf_spec]
          omega
        have htree := (ih (sizeOf t) hsz.1).1 t le_rfl st hpre
        obtain ⟨hsrc1, hmono1, hpre1⟩ := htree
        have hts := (ih (sizeOf ts) hsz.2).2 ts le_rfl (traverseTree t st) hpre1
        obtain ⟨hsrc2, hmono2, hpre2⟩ := hts
        refine ⟨?_, ?_, ?_⟩ <;> simp only [traverseList_cons]
        · intro m hm
          rcases hsrc2 m hm with h | h
          · rcases hsrc1 m h with h' | h'
            · exact Or.inl h'
            · exact Or.inr (by simp [List.mem_append]; exact Or.inl h')
          · exact Or.inr (by simp [List.mem_append]; exact Or.inr h)
        · intro x hx
          exact hmono2 x (hmono1 x hx)
        · exact hpre2


lemma traverseTree_inv (t : DependencyTree) (st : List ModInfo × List String)
    (h : TraversePre st) : TraversePost st (traverseTree t st) (postOrder t) :=
  (traverse_main (sizeOf t)).1 t le_rfl st h

lemma downloadNames_nodup (t? : Option DependencyTree) : (downloadNames t?).Nodup := by
  cases t? with
  | none => simp [downloadNames, get_download_list]
  | some t =>
    have h := traverseTree_inv t ([], []) ⟨by simp, by simp⟩
    simpa [downloadNames, get_download_list] using h.2.2.1

lemma download_list_mem_postOrder (t : DependencyTree) (m : ModInfo)
    (hm : m ∈ get_download_list (some t)) : m ∈ postOrder t := by
  have h := traverseTree_inv t ([], []) ⟨by simp, by simp⟩
  rcases h.1 m (by simpa [get_download_list] using hm) with h' | h'
  · simp at h'
  · exact h'

lemma traverse_exact_main : ∀ n : Nat,
    (∀ t : DependencyTree, sizeOf t ≤ n → ∀ acc seen,
      ((acc.map ModInfo.name) ++ postNames t).Nodup →
      (∀ x, x ∈ seen ↔ x ∈ acc.map ModInfo.name) →
      (traverseTree t (acc, seen)).1 = acc ++ postOrder t ∧
      (∀ x, x ∈ (traverseTree t (acc, seen)).2 ↔
        x ∈ acc.map ModInfo.name ++ postNames t)) ∧
    (∀ ds : List DependencyTree, sizeOf ds ≤ n → ∀ acc seen,
      ((acc.map ModInfo.name) ++ (postOrderList ds).map ModInfo.name).Nodup →
      (∀ x, x ∈ seen ↔ x ∈ acc.map ModInfo.name) →
      (traverseList ds (acc, seen)).1 = acc ++ postOrderList ds ∧
      (∀ x, x ∈ (traverseList ds (acc, seen)).2 ↔
        x ∈ acc.map ModInfo.name ++ (postOrderList ds).map ModInfo.name)) := by
  intro n
  induction n using Nat.strong_induction_on with
  | _ n ih =>
    constructor
    · intro t hle acc seen hnodup hseen
      obtain ⟨r, ds⟩ := t
      have hds : sizeOf ds < n := by
        have := sizeOf_children_lt r ds
        omega
      have hpn : postNames (.mk r ds) =
          (postOrderList ds).map ModInfo.name ++ [r.name] := by
        simp [postNames]
      rw [hpn] at hnodup
      have hnodup' : ((acc.map ModInfo.name ++ (postOrderList ds).map ModInfo.name) ++
          [r.name]).Nodup := by
        rwa [List.append_assoc]
      have hlist := (ih (sizeOf ds) hds).2 ds le_rfl acc seen
        (hnodup'.sublist (List.sublist_append_left _ _)) hseen
      have hrn : r.name ∉ (traverseList ds (acc, seen)).2 := by
        intro hmem
        have hx := (hlist.2 r.name).1 hmem
        rcases List.nodup_append.1 hnodup' with ⟨_, _, hdisj⟩
        exact hdisj hx (by simp)
      constructor
      · simp only [traverseTree_mk, if_neg hrn, hlist.1, hpn, postOrder_mk,
          List.append_assoc]
      · intro x
        simp only [traverseTree_mk, if_neg hrn, List.mem_cons, hlist.2 x, hpn,
          List.mem_append, List.mem_singleton]
        tauto
    · intro ds hle acc seen hnodup hseen
      cases ds with
      | nil =>
        refine ⟨by simp, ?_⟩
        intro x
        simp only [traverseList_nil]
        simpa using hseen x
      | cons t ts =>
        have hsz : sizeOf t < n ∧ sizeOf ts < n := by
          have : sizeOf (t :: ts) = 1 + sizeOf t + sizeOf ts := by
            simp [List.cons.sizeOf_spec]
          omega
        have hsplit : (postOrderList (t :: ts)).map ModInfo.name =
            postNames t ++ (postOrderList ts).map ModInfo.name := by
          simp [postNames]
        rw [hsplit] at hnodup
        have hassoc : ((acc.map ModInfo.name ++ postNames t) ++
            (postOrderList ts).map ModInfo.name).Nodup := by
          rwa [List.append_assoc]
        have htree := (ih (sizeOf t) hsz.1).1 t le_rfl acc seen
          (hassoc.sublist (List.sublist_append_left _ _)) hseen
        have hmid : traverseTree t (acc, seen) =
            (acc ++ postOrder t, (traverseTree t (acc, seen)).2) := by
          exact Prod.ext htree.1 rfl
        have hmapmid : (acc ++ postOrder t).map ModInfo.name =
            acc.map ModInfo.name ++ postNames t := by
          simp [postNames]
        have hts := (ih (sizeOf ts) hsz.2).2 ts le_rfl (acc ++ postOrder t)
          (traverseTree t (acc, seen)).2
          (by rwa [hmapmid]) (by
            intro x
            rw [hmapmid]
            exact htree.2 x)
        constructor
        · rw [traverseList_cons, hmid, hts.1, postOrderList_cons, List.append_assoc]
        · intro x
          rw [traverseList_cons, hmid]
          rw [hts.2 x, hmapmid, hsplit, List.append_assoc]

lemma get_download_list_eq_postOrder (t : DependencyTree)
    (h : (postNames t).Nodup) : get_download_list (some t) = postOrder t := by
  have hmain := (traverse_exact_main (sizeOf t)).1 t le_rfl ([] : List ModInfo) []
    (by simpa using h) (by simp)
  simpa [get_download_list] using hmain.1

lemma postOrder_sublist_of_mem (d : DependencyTree) :
    ∀ ds : List DependencyTree, d ∈ ds → List.Sublist (postOrder d) (postOrderList ds) := by
  intro ds hds
  induction ds with
  | nil => cases hds
  | cons t ts ih =>
    rcases List.mem_cons.1 hds with h | h
    · subst h
      rw [postOrderList_cons]
      exact List.sublist_append_left _ _
    · rw [postOrderList_cons]
      exact (ih h).trans (List.sublist_append_right _ _)

lemma rootName_mem_postNames (t : DependencyTree) : t.rootName ∈ postNames t := by
  obtain ⟨r, ds⟩ := t
  simp [postNames, DependencyTree.rootName]

lemma hasEdge_sublist_main : ∀ n : Nat,
    (∀ t : DependencyTree, sizeOf t ≤ n → ∀ p c, hasEdge t p c = true →
      List.Sublist [c, p] (postNames t)) ∧
    (∀ ds : List DependencyTree, sizeOf ds ≤ n → ∀ p c, hasEdgeList ds p c = true →
      List.Sublist [c, p] ((postOrderList ds).map ModInfo.name)) := by
  intro n
  induction n using Nat.strong_induction_on with
  | _ n ih =>
    constructor
    · intro t hle p c hedge
      obtain ⟨r, ds⟩ := t
      have hds : sizeOf ds < n := by
        have := sizeOf_children_lt r ds
        omega
      have hpn : postNames (.mk r ds) =
          (postOrderList ds).map ModInfo.name ++ [r.name] := by
        simp [postNames]
      rw [hasEdge_mk, Bool.or_eq_true, Bool.and_eq_true] at hedge
      rw [hpn]
      rcases hedge with ⟨hp, hc⟩ | hrest
      · have hp' : r.name = p := by simpa using hp
        rcases List.any_eq_true.1 hc with ⟨d, hd, hdc⟩
        have hdc' : d.rootName = c := by simpa using hdc
        have hcmem : c ∈ (postOrderList ds).map ModInfo.name := by
          have h1 : c ∈ postNames d := hdc' ▸ rootName_mem_postNames d
          have h2 : List.Sublist (postNames d) ((postOrderList ds).map ModInfo.name) :=
            (postOrder_sublist_of_mem d ds hd).map ModInfo.name
          exact h2.subset h1
        have : List.Sublist ([c] ++ [p]) ((postOrderList ds).map ModInfo.name ++ [r.name]) :=
          List.Sublist.append (List.singleton_sublist.2 hcmem)
            (by rw [hp'])
        simpa using this
      · have := (ih (sizeOf ds) hds).2 ds le_rfl p c hrest
        exact this.trans (List.sublist_append_left _ _)
    · intro ds hle p c hedge
      cases ds with
      | nil => simp at hedge
      | cons t ts =>
        have hsz : sizeOf t < n ∧ sizeOf ts < n := by
          have : sizeOf (t :: ts) = 1 + sizeOf t + sizeOf ts := by
            simp [List.cons.sizeOf_spec]
          omega
        rw [hasEdgeList_cons, Bool.or_eq_true] at hedge
        rw [postOrderList_cons, List.map_append]
        rcases hedge with h | h
        · exact ((ih (sizeOf t) hsz.1).1 t le_rfl p c h).trans
            (List.sublist_append_left _ _)
        · exact ((ih (sizeOf ts) hsz.2).2 ts le_rfl p c h).trans
            (List.sublist_append_right _ _)

lemma hasEdge_sublist (t : DependencyTree) (p c : String) (h : hasEdge t p c = true) :
    List.Sublist [c, p] (postNames t) :=
  (hasEdge_sublist_main (sizeOf t)).1 t le_rfl p c h

/-! ## Unfolding equations for the resolver -/

lemma resolveRec_zero (portal : ModPortal) (ac : String) (io : Bool) (url : String)
    (iopt : Bool) (st : ResolveState) :
    resolveRec portal ac io 0 url iopt st =
      (.error "recursion limit", { st with fuelOut := true }) := rfl

lemma resolveRec_revisit (portal : ModPortal) (ac : String) (io : Bool) (fuel : Nat)
    (url : String) (iopt : Bool) (st : ResolveState) (h : url ∈ st.visited) :
    resolveRec portal ac io (fuel + 1) url iopt st = (.ok none, st) := by
  simp [resolveRec, h]

lemma resolveRec_fetch_fail (portal : ModPortal) (ac : String) (io : Bool) (fuel : Nat)
    (url : String) (iopt : Bool) (st : ResolveState) (h : url ∉ st.visited)
    (hl : portal.pages.lookup url = none) :
    resolveRec portal ac io (fuel + 1) url iopt st =
      (.error ("Failed to load page: " ++ url),
       { st with visited := url :: st.visited, fetches := st.fetches ++ [url] }) := by
  simp [resolveRec, h, hl]

lemma resolveRec_bad_info (portal : ModPortal) (ac : String) (io : Bool) (fuel : Nat)
    (url : String) (iopt : Bool) (st : ResolveState) (pd : PageData)
    (h : url ∉ st.visited) (hl : portal.pages.lookup url = some pd)
    (hbad : pd.name = "" ∨ pd.version = "") :
    resolveRec portal ac io (fuel + 1) url iopt st =
      (.error ("Could not get mod info for " ++ url),
       { st with visited := url :: st.visited, fetches := st.fetches ++ [url] }) := by
  rcases hbad with hbad | hbad <;> simp [resolveRec, h, hl, hbad]

lemma resolveRec_reserved (portal : ModPortal) (ac : String) (io : Bool) (fuel : Nat)
    (url : String) (iopt : Bool) (st : ResolveState) (pd : PageData)
    (h : url ∉ st.visited) (hl : portal.pages.lookup url = some pd)
    (hbad : ¬(pd.name = "" ∨ pd.version = "")) (hres : pd.name ∈ RESERVED_DEPENDENCIES) :
    resolveRec portal ac io (fuel + 1) url iopt st =
      (.ok none,
       { st with visited := url :: st.visited, fetches := st.fetches ++ [url] }) := by
  simp only [not_or] at hbad
  simp [resolveRec, h, hl, hbad.1, hbad.2, hres]

lemma resolveRec_leaf (portal : ModPortal) (ac : String) (io : Bool) (fuel : Nat)
    (url : String) (iopt : Bool) (st : ResolveState) (pd : PageData)
    (h : url ∉ st.visited) (hl : portal.pages.lookup url = some pd)
    (hbad : ¬(pd.name = "" ∨ pd.version = ""))
    (hres : pd.name ∉ RESERVED_DEPENDENCIES)
    (hdeps : get_required_dependencies portal pd.name io = []) :
    resolveRec portal ac io (fuel + 1) url iopt st =
      (.ok (some (.mk (resolvedModInfo ac pd url iopt) [])),
       { st with visited := url :: st.visited, fetches := st.fetches ++ [url] }) := by
  simp only [not_or] at hbad
  simp [resolveRec, h, hl, hbad.1, hbad.2, hres, hdeps]

lemma resolveRec_node (portal : ModPortal) (ac : String) (io : Bool) (fuel : Nat)
    (url : String) (iopt : Bool) (st : ResolveState) (pd : PageData)
    (h : url ∉ st.visited) (hl : portal.pages.lookup url = some pd)
    (hbad : ¬(pd.name = "" ∨ pd.version = ""))
    (hres : pd.name ∉ RESERVED_DEPENDENCIES)
    (hdeps : get_required_dependencies portal pd.name io ≠ []) :
    resolveRec portal ac io (fuel + 1) url iopt st =
      (.ok (some (.mk (resolvedModInfo ac pd url iopt)
        (resolveDepsAux (fun u s => resolveRec portal ac io fuel u false s)
          (get_required_dependencies portal pd.name io)
          { st with visited := url :: st.visited, fetches := st.fetches ++ [url] }).1)),
       (resolveDepsAux (fun u s => resolveRec portal ac io fuel u false s)
          (get_required_dependencies portal pd.name io)
          { st with visited := url :: st.visited, fetches := st.fetches ++ [url] }).2) := by
  simp only [not_or] at hbad
  have hne : (get_required_dependencies portal pd.name io).isEmpty = false := by
    simpa [List.isEmpty_iff] using hdeps
  simp [resolveRec, h, hl, hbad.1, hbad.2, hres, hne]

/-! ## State growth of the resolver -/

/-- Relation between the resolver state before and after a (sub)call:
`analyzed_mods` only grows, and the page fetches performed by the call are
pairwise distinct URLs that were not yet in `analyzed_mods` when the call
started and are in it when it returns (each fetch at
`dependency_resolver.py` line 99 happens strictly after the URL is added to
`analyzed_mods` at line 95). -/
def StOk (s s' : ResolveState) : Prop :=
  (∀ x ∈ s.visited, x ∈ s'.visited) ∧
  ∃ fl, s'.fetches = s.fetches ++ fl ∧ fl.Nodup ∧
    ∀ x ∈ fl, x ∉ s.visited ∧ x ∈ s'.visited

lemma StOk.rfl (s : ResolveState) : StOk s s :=
  ⟨fun _ h => h, [], by simp, List.nodup_nil, by simp⟩

lemma StOk.trans {s₁ s₂ s₃ : ResolveState} (h12 : StOk s₁ s₂) (h23 : StOk s₂ s₃) :
    StOk s₁ s₃ := by
  obtain ⟨v12, fl1, hf1, nd1, hm1⟩ := h12
  obtain ⟨v23, fl2, hf2, nd2, hm2⟩ := h23
  refine ⟨fun x h => v23 x (v12 x h), fl1 ++ fl2, ?_, ?_, ?_⟩
  · rw [hf2, hf1, List.append_assoc]
  · refine List.Nodup.append nd1 nd2 ?_
    intro x hx1 hx2
    exact (hm2 x hx2).1 ((hm1 x hx1).2)
  · intro x hx
    rcases List.mem_append.1 hx with h | h
    · exact ⟨(hm1 x h).1, v23 x (hm1 x h).2⟩
    · exact ⟨fun hv => (hm2 x h).1 (v12 x hv), (hm2 x h).2⟩

lemma stOk_fetched (url : String) (st : ResolveState) (h : url ∉ st.visited) :
    StOk st { st with visited := url :: st.visited, fetches := st.fetches ++ [url] } := by
  refine ⟨fun x hx => List.mem_cons_of_mem _ hx, [url], Eq.refl _, List.nodup_singleton _, ?_⟩
  intro x hx
  simp only [List.mem_singleton] at hx
  subst hx
  exact ⟨h, List.mem_cons_self _ _⟩

lemma resolveDepsAux_stOk
    (recurse : String → ResolveState → Except String (Option DependencyTree) × ResolveState)
    (H : ∀ u s, StOk s (recurse u s).2) :
    ∀ (deps : List (String × String)) (st : ResolveState),
      StOk st (resolveDepsAux recurse deps st).2 := by
  intro deps
  induction deps with
  | nil => intro st; exact StOk.rfl st
  | cons d rest ih =>
    intro st
    obtain ⟨dn, du⟩ := d
    by_cases hv : du ∈ st.visited
    · simpa [resolveDepsAux, hv] using ih st
    · rcases hr : recurse du st with ⟨res, st'⟩
      have hst' : StOk st st' := by
        have := H du st
        rwa [hr] at this
      cases res with
      | error e =>
        have : (resolveDepsAux recurse ((dn, du) :: rest) st).2 =
            (resolveDepsAux recurse rest st').2 := by
          simp [resolveDepsAux, hv, hr]
        rw [this]
        exact hst'.trans (ih st')
      | ok t? =>
        cases t? with
        | none =>
          have : (resolveDepsAux recurse ((dn, du) :: rest) st).2 =
              (resolveDepsAux recurse rest st').2 := by
            simp [resolveDepsAux, hv, hr]
          rw [this]
          exact hst'.trans (ih st')
        | some t =>
          have : (resolveDepsAux recurse ((dn, du) :: rest) st).2 =
              (resolveDepsAux recurse rest st').2 := by
            simp [resolveDepsAux, hv, hr]
          rw [this]
          exact hst'.trans (ih st')

lemma resolveRec_stOk (portal : ModPortal) (ac : String) (io : Bool) :
    ∀ (fuel : Nat) (url : String) (iopt : Bool) (st : ResolveState),
      StOk st (resolveRec portal ac io fuel url iopt st).2 := by
  intro fuel
  induction fuel with
  | zero =>
    intro url iopt st
    rw [resolveRec_zero]
    exact ⟨fun _ h => h, [], by simp, List.nodup_nil, by simp⟩
  | succ fuel ih =>
    intro url iopt st
    by_cases hv : url ∈ st.visited
    · rw [resolveRec_revisit portal ac io fuel url iopt st hv]
      exact StOk.rfl st
    · rcases hl : portal.pages.lookup url with _ | pd
      · rw [resolveRec_fetch_fail portal ac io fuel url iopt st hv hl]
        exact stOk_fetched url st hv
      · by_cases hbad : pd.name = "" ∨ pd.version = ""
        · rw [resolveRec_bad_info portal ac io fuel url iopt st pd hv hl hbad]
          exact stOk_fetched url st hv
        · by_cases hres : pd.name ∈ RESERVED_DEPENDENCIES
          · rw [resolveRec_reserved portal ac io fuel url iopt st pd hv hl hbad hres]
            exact stOk_fetched url st hv
          · by_cases hdeps : get_required_dependencies portal pd.name io = []
            · rw [resolveRec_leaf portal ac io fuel url iopt st pd hv hl hbad hres hdeps]
              exact stOk_fetched url st hv
            · rw [resolveRec_node portal ac io fuel url iopt st pd hv hl hbad hres hdeps]
              exact (stOk_fetched url st hv).trans
                (resolveDepsAux_stOk _ (fun u s => ih u false s) _ _)

/-! ## Fuel sufficiency: the fuel branch of the embedding is unreachable -/

/-- Number of portal page URLs not yet in `visited`. Each recursion step of
`_resolve_recursive` that recurses further first moved a URL with a page
from "unvisited" to "visited", so this measure bounds the recursion
depth. -/
def unvisitedCount (portal : ModPortal) (visited : List String) : Nat :=
  ((portal.pages.map Prod.fst).filter (fun u => decide (u ∉ visited))).length

lemma length_filter_mono {α : Type} (l : List α) (p q : α → Bool)
    (h : ∀ x, p x = true → q x = true) :
    (l.filter p).length ≤ (l.filter q).length := by
  induction l with
  | nil => simp
  | cons b t ih =>
    rw [List.filter_cons, List.filter_cons]
    by_cases hp : p b = true
    · rw [if_pos hp, if_pos (h b hp)]
      simpa using ih
    · rw [if_neg hp]
      by_cases hq : q b = true
      · rw [if_pos hq]
        simp only [List.length_cons]
        omega
      · rw [if_neg hq]
        exact ih

lemma length_filter_lt {α : Type} (l : List α) (p q : α → Bool)
    (h : ∀ x, p x = true → q x = true)
    (a : α) (ha : a ∈ l) (hpa : p a = false) (hqa : q a = true) :
    (l.filter p).length < (l.filter q).length := by
  induction l with
  | nil => cases ha
  | cons b t ih =>
    rw [List.filter_cons, List.filter_cons]
    by_cases hb : b = a
    · subst hb
      rw [if_neg (by simp [hpa]), if_pos hqa]
      simp only [List.length_cons]
      have := length_filter_mono t p q h
      omega
    · have hmem : a ∈ t := by
        rcases List.mem_cons.1 ha with h' | h'
        · exact absurd h'.symm hb
        · exact h'
      by_cases hp : p b = true
      · rw [if_pos hp, if_pos (h b hp)]
        simp only [List.length_cons]
        exact Nat.succ_lt_succ (ih hmem)
      · rw [if_neg hp]
        by_cases hq : q b = true
        · rw [if_pos hq]
          simp only [List.length_cons]
          have := ih hmem
          omega
        · rw [if_neg hq]
          exact ih hmem

lemma unvisitedCount_mono (portal : ModPortal) (v₁ v₂ : List String)
    (h : ∀ x ∈ v₁, x ∈ v₂) :
    unvisitedCount portal v₂ ≤ unvisitedCount portal v₁ := by
  refine length_filter_mono _ _ _ ?_
  intro x hx
  simp only [decide_eq_true_eq] at hx ⊢
  exact fun hx1 => hx (h x hx1)

lemma filter_cons_length_lt (l : List String) (url : String) (v : List String)
    (hmem : url ∈ l) (hnv : url ∉ v) :
    (l.filter (fun u => decide (u ∉ url :: v))).length <
      (l.filter (fun u => decide (u ∉ v))).length := by
  refine length_filter_lt _ _ _ ?_ url hmem ?_ ?_
  · intro x hx
    simp only [decide_eq_true_eq] at hx ⊢
    exact fun hx1 => hx (List.mem_cons_of_mem _ hx1)
  · simp
  · simpa using hnv

lemma lookup_mem_keys {α : Type} (url : String) (l : List (String × α)) (x : α)
    (h : l.lookup url = some x) : url ∈ l.map Prod.fst := by
  induction l with
  | nil => simp [List.lookup] at h
  | cons p t ih =>
    obtain ⟨k, v⟩ := p
    by_cases hk : url = k
    · subst hk
      exact List.mem_cons_self _ _
    · have hbeq : (url == k) = false := beq_eq_false_iff_ne.2 hk
      rw [List.lookup, hbeq] at h
      exact List.mem_cons_of_mem _ (ih h)

lemma unvisitedCount_fetch_lt (portal : ModPortal) (url : String) (v : List String)
    (pd : PageData) (hl : portal.pages.lookup url = some pd) (hnv : url ∉ v) :
    unvisitedCount portal (url :: v) < unvisitedCount portal v :=
  filter_cons_length_lt _ url v (lookup_mem_keys url portal.pages pd hl) hnv

lemma resolveDepsAux_fuelOut (portal : ModPortal)
    (recurse : String → ResolveState → Except String (Option DependencyTree) × ResolveState)
    (K : Nat)
    (Hst : ∀ u s, StOk s (recurse u s).2)
    (Hfo : ∀ u s, unvisitedCount portal s.visited ≤ K →
      ((recurse u s).2).fuelOut = s.fuelOut) :
    ∀ (deps : List (String × String)) (st : ResolveState),
      unvisitedCount portal st.visited ≤ K →
      (resolveDepsAux recurse deps st).2.fuelOut = st.fuelOut := by
  intro deps
  induction deps with
  | nil => intro st _; rfl
  | cons d rest ih =>
    intro st hK
    obtain ⟨dn, du⟩ := d
    by_cases hv : du ∈ st.visited
    · simpa [resolveDepsAux, hv] using ih st hK
    · rcases hr : recurse du st with ⟨res, st'⟩
      have hst' : StOk st st' := by
        have := Hst du st
        rwa [hr] at this
      have hK' : unvisitedCount portal st'.visited ≤ K :=
        le_trans (unvisitedCount_mono portal st.visited st'.visited hst'.1) hK
      have hfo' : st'.fuelOut = st.fuelOut := by
        have := Hfo du st hK
        rwa [hr] at this
      cases res with
      | error e =>
        have heq : (resolveDepsAux recurse ((dn, du) :: rest) st).2 =
            (resolveDepsAux recurse rest st').2 := by
          simp [resolveDepsAux, hv, hr]
        rw [heq, ih st' hK', hfo']
      | ok t? =>
        cases t? with
        | none =>
          have heq : (resolveDepsAux recurse ((dn, du) :: rest) st).2 =
              (resolveDepsAux recurse rest st').2 := by
            simp [resolveDepsAux, hv, hr]
          rw [heq, ih st' hK', hfo']
        | some t =>
          have heq : (resolveDepsAux recurse ((dn, du) :: rest) st).2 =
              (resolveDepsAux recurse rest st').2 := by
            simp [resolveDepsAux, hv, hr]
          rw [heq, ih st' hK', hfo']

lemma resolveRec_fuelOut (portal : ModPortal) (ac : String) (io : Bool) :
    ∀ (fuel : Nat) (url : String) (iopt : Bool) (st : ResolveState),
      unvisitedCount portal st.visited + 1 ≤ fuel →
      (resolveRec portal ac io fuel url iopt st).2.fuelOut = st.fuelOut := by
  intro fuel
  induction fuel with
  | zero => intro url iopt st h; omega
  | succ fuel ih =>
    intro url iopt st hfuel
    by_cases hv : url ∈ st.visited
    · rw [resolveRec_revisit portal ac io fuel url iopt st hv]
    · rcases hl : portal.pages.lookup url with _ | pd
      · rw [resolveRec_fetch_fail portal ac io fuel url iopt st hv hl]
      · by_cases hbad : pd.name = "" ∨ pd.version = ""
        · rw [resolveRec_bad_info portal ac io fuel url iopt st pd hv hl hbad]
        · by_cases hres : pd.name ∈ RESERVED_DEPENDENCIES
          · rw [resolveRec_reserved portal ac io fuel url iopt st pd hv hl hbad hres]
          · by_cases hdeps : get_required_dependencies portal pd.name io = []
            · rw [resolveRec_leaf portal ac io fuel url iopt st pd hv hl hbad hres hdeps]
            · rw [resolveRec_node portal ac io fuel url iopt st pd hv hl hbad hres hdeps]
              have hlt := unvisitedCount_fetch_lt portal url st.visited pd hl hv
              exact resolveDepsAux_fuelOut portal _
                (unvisitedCount portal (url :: st.visited))
                (fun u s => resolveRec_stOk portal ac io fuel u false s)
                (fun u s hs => ih u false s (by omega))
                _ _ (le_refl _)

/-- At the fuel supplied by `resolve_dependencies`, the fuel-exhaustion
branch of the embedding is never taken — i.e. Python's unbounded recursion
terminates on every portal, because each recursion level consumes a fresh
portal URL. -/
lemma resolveRec_no_fuelOut (portal : ModPortal) (ac : String) (io : Bool) (url : String) :
    (resolve_dependencies portal ac io url).2.fuelOut = false := by
  have hb : unvisitedCount portal [] + 1 ≤ portal.pages.length + 1 := by
    have h1 : unvisitedCount portal [] ≤ (portal.pages.map Prod.fst).length :=
      List.length_filter_le _ _
    have h2 : (portal.pages.map Prod.fst).length = portal.pages.length :=
      List.length_map _ _
    omega
  exact resolveRec_fuelOut portal ac io (portal.pages.length + 1) url false
    { visited := [], fetches := [], fuelOut := false } hb

/-! ## Reserved names never enter a resolved tree -/

/-- No node of the tree carries a reserved mod name. -/
def TreeOk (t : DependencyTree) : Prop :=
  ∀ m ∈ postOrder t, m.name ∉ RESERVED_DEPENDENCIES

lemma mem_postOrderList (m : ModInfo) :
    ∀ ds : List DependencyTree, m ∈ postOrderList ds → ∃ d ∈ ds, m ∈ postOrder d := by
  intro ds
  induction ds with
  | nil => simp
  | cons t ts ih =>
    intro hm
    rw [postOrderList_cons] at hm
    rcases List.mem_append.1 hm with h | h
    · exact ⟨t, List.mem_cons_self _ _, h⟩
    · obtain ⟨d, hd, hmd⟩ := ih h
      exact ⟨d, List.mem_cons_of_mem _ hd, hmd⟩

lemma resolveDepsAux_treeOk
    (recurse : String → ResolveState → Except String (Option DependencyTree) × ResolveState)
    (H : ∀ u s t s', recurse u s = (.ok (some t), s') → TreeOk t) :
    ∀ (deps : List (String × String)) (st : ResolveState) (t : DependencyTree),
      t ∈ (resolveDepsAux recurse deps st).1 → TreeOk t := by
  intro deps
  induction deps with
  | nil => intro st t ht; simp [resolveDepsAux] at ht
  | cons d rest ih =>
    intro st t ht
    obtain ⟨dn, du⟩ := d
    by_cases hv : du ∈ st.visited
    · rw [show resolveDepsAux recurse ((dn, du) :: rest) st =
        resolveDepsAux recurse rest st by simp [resolveDepsAux, hv]] at ht
      exact ih st t ht
    · rcases hr : recurse du st with ⟨res, st'⟩
      cases res with
      | error e =>
        rw [show resolveDepsAux recurse ((dn, du) :: rest) st =
          resolveDepsAux recurse rest st' by simp [resolveDepsAux, hv, hr]] at ht
        exact ih st' t ht
      | ok t? =>
        cases t? with
        | none =>
          rw [show resolveDepsAux recurse ((dn, du) :: rest) st =
            resolveDepsAux recurse rest st' by simp [resolveDepsAux, hv, hr]] at ht
          exact ih st' t ht
        | some t0 =>
          have hfst : (resolveDepsAux recurse ((dn, du) :: rest) st).1 =
              t0 :: (resolveDepsAux recurse rest st').1 := by
            simp [resolveDepsAux, hv, hr]
          rw [hfst] at ht
          rcases List.mem_cons.1 ht with h | h
          · subst h
            exact H du st t st' hr
          · exact ih st' t h

lemma resolveRec_treeOk (portal : ModPortal) (ac : String) (io : Bool) :
    ∀ (fuel : Nat) (url : String) (iopt : Bool) (st : ResolveState)
      (t : DependencyTree) (st' : ResolveState),
      resolveRec portal ac io fuel url iopt st = (.ok (some t), st') → TreeOk t := by
  intro fuel
  induction fuel with
  | zero =>
    intro url iopt st t st' h
    rw [resolveRec_zero] at h
    simp at h
  | succ fuel ih =>
    intro url iopt st t st' h
    by_cases hv : url ∈ st.visited
    · rw [resolveRec_revisit portal ac io fuel url iopt st hv] at h
      simp at h
    · rcases hl : portal.pages.lookup url with _ | pd
      · rw [resolveRec_fetch_fail portal ac io fuel url iopt st hv hl] at h
        simp at h
      · by_cases hbad : pd.name = "" ∨ pd.version = ""
        · rw [resolveRec_bad_info portal ac io fuel url iopt st pd hv hl hbad] at h
          simp at h
        · by_cases hres : pd.name ∈ RESERVED_DEPENDENCIES
          · rw [resolveRec_reserved portal ac io fuel url iopt st pd hv hl hbad hres] at h
            simp at h
          · by_cases hdeps : get_required_dependencies portal pd.name io = []
            · rw [resolveRec_leaf portal ac io fuel url iopt st pd hv hl hbad hres hdeps] at h
              rw [Prod.mk.injEq, Except.ok.injEq, Option.some.injEq] at h
              obtain ⟨ht, -⟩ := h
              subst ht
              intro m hm
              simp only [postOrder_mk, postOrderList_nil, List.nil_append,
                List.mem_singleton] at hm
              subst hm
              exact hres
            · rw [resolveRec_node portal ac io fuel url iopt st pd hv hl hbad hres hdeps] at h
              rw [Prod.mk.injEq, Except.ok.injEq, Option.some.injEq] at h
              obtain ⟨ht, -⟩ := h
              subst ht
              intro m hm
              simp only [postOrder_mk] at hm
              rcases List.mem_append.1 hm with hmem | hmem
              · obtain ⟨d, hd, hmd⟩ := mem_postOrderList m _ hmem
                exact resolveDepsAux_treeOk _
                  (fun u s t0 s' h0 => ih u false s t0 s' h0) _ _ d hd m hmd
              · simp only [List.mem_singleton] at hmem
                subst hmem
                exact hres

/-! ## Root behaviour of the resolver -/

lemma resolveRec_root_ok (portal : ModPortal) (ac : String) (io : Bool) (fuel : Nat)
    (url : String) (iopt : Bool) (st : ResolveState) (pd : PageData)
    (h : url ∉ st.visited) (hl : portal.pages.lookup url = some pd)
    (hn : pd.name ≠ "") (hv : pd.version ≠ "")
    (hres : pd.name ∉ RESERVED_DEPENDENCIES) :
    ∃ ts st', resolveRec portal ac io (fuel + 1) url iopt st =
      (.ok (some (.mk (resolvedModInfo ac pd url iopt) ts)), st') := by
  have hbad : ¬(pd.name = "" ∨ pd.version = "") := by
    intro hx
    rcases hx with hx | hx
    · exact hn hx
    · exact hv hx
  by_cases hdeps : get_required_dependencies portal pd.name io = []
  · exact ⟨[], _, resolveRec_leaf portal ac io fuel url iopt st pd h hl hbad hres hdeps⟩
  · exact ⟨_, _, resolveRec_node portal ac io fuel url iopt st pd h hl hbad hres hdeps⟩

lemma resolveRec_visits (portal : ModPortal) (ac : String) (io : Bool) (fuel : Nat)
    (url : String) (iopt : Bool) (st : ResolveState) (h : url ∉ st.visited) :
    url ∈ (resolveRec portal ac io (fuel + 1) url iopt st).2.visited := by
  rcases hl : portal.pages.lookup url with _ | pd
  · rw [resolveRec_fetch_fail portal ac io fuel url iopt st h hl]
    exact List.mem_cons_self _ _
  · by_cases hbad : pd.name = "" ∨ pd.version = ""
    · rw [resolveRec_bad_info portal ac io fuel url iopt st pd h hl hbad]
      exact List.mem_cons_self _ _
    · by_cases hres : pd.name ∈ RESERVED_DEPENDENCIES
      · rw [resolveRec_reserved portal ac io fuel url iopt st pd h hl hbad hres]
        exact List.mem_cons_self _ _
      · by_cases hdeps : get_required_dependencies portal pd.name io = []
        · rw [resolveRec_leaf portal ac io fuel url iopt st pd h hl hbad hres hdeps]
          exact List.mem_cons_self _ _
        · rw [resolveRec_node portal ac io fuel url iopt st pd h hl hbad hres hdeps]
          have hst := resolveDepsAux_stOk
            (fun u s => resolveRec portal ac io fuel u false s)
            (fun u s => resolveRec_stOk portal ac io fuel u false s)
            (get_required_dependencies portal pd.name io)
            { st with visited := url :: st.visited, fetches := st.fetches ++ [url] }
          exact hst.1 url (List.mem_cons_self _ _)

/-! ## Retry-loop lemmas -/

lemma download_with_retry_first_filesystem (max_retries retry_delay : Nat)
    (outcome : Nat → Option PyExc) (e : PyExc)
    (hmax : 1 ≤ max_retries) (h1 : outcome 1 = some e)
    (hcat : categorize_error e = .filesystem) (hret : is_retryable_error e = false) :
    download_with_retry max_retries retry_delay outcome =
      { success := false
        error := some (if isOSErrorInstance e then "Filesystem error: " ++ e.str else e.str)
        attempts := 1
        sleeps := [] } := by
  obtain ⟨m, rfl⟩ : ∃ m, max_retries = m + 1 := ⟨max_retries - 1, by omega⟩
  cases hos : isOSErrorInstance e
  · simp [download_with_retry, retryGo, h1, hos, hret]
  · simp [download_with_retry, retryGo, h1, hos, hcat]

/-! ## Concrete scenario portals used by the claim theorems -/

/-- Acyclic scenario: mod A requires B and C, B requires D. -/
def W_acyclic : ModPortal :=
  { pages := [("uA", ⟨"A", "1"⟩), ("uB", ⟨"B", "1"⟩), ("uC", ⟨"C", "1"⟩), ("uD", ⟨"D", "1"⟩)]
    deps := [("A", ⟨[("B", "uB"), ("C", "uC")], []⟩), ("B", ⟨[("D", "uD")], []⟩)] }

/-- Cyclic scenario: A requires B and B requires A. -/
def W_cycle : ModPortal :=
  { pages := [("uA", ⟨"A", "1"⟩), ("uB", ⟨"B", "1"⟩)]
    deps := [("A", ⟨[("B", "uB")], []⟩), ("B", ⟨[("A", "uA")], []⟩)] }

/-- Partial-failure scenario: A requires B and C, but B's page cannot be
fetched (no entry for `uB`). -/
def W_brokenDep : ModPortal :=
  { pages := [("uA", ⟨"A", "1"⟩), ("uC", ⟨"C", "1"⟩)]
    deps := [("A", ⟨[("B", "uB"), ("C", "uC")], []⟩)] }

/-- Shared-failed-dependency scenario: A requires B and C, C also requires
B, and B's page cannot be fetched. -/
def W_shared : ModPortal :=
  { pages := [("uA", ⟨"A", "1"⟩), ("uC", ⟨"C", "1"⟩)]
    deps := [("A", ⟨[("B", "uB"), ("C", "uC")], []⟩), ("C", ⟨[("B", "uB")], []⟩)] }

/-- Reserved-dependency scenario: A requires the reserved mod "space-age". -/
def W_reserved : ModPortal :=
  { pages := [("uA", ⟨"A", "1"⟩), ("uS", ⟨"space-age", "2"⟩)]
    deps := [("A", ⟨[("space-age", "uS")], []⟩)] }

/-- The download list the orchestrator computes from one resolution
(`downloader.py` lines 100-106: `resolve_dependencies` then
`get_download_list`; an exception yields no list). -/
def resolvedDownloadList (portal : ModPortal) (ac : String) (io : Bool)
    (url : String) : List ModInfo :=
  match (resolve_dependencies portal ac io url).1 with
  | .ok t? => get_download_list t?
  | .error _ => []

/-- Names of a resolved download list, in order. -/
def resolvedDownloadNames (portal : ModPortal) (ac : String) (io : Bool)
    (url : String) : List String :=
  (resolvedDownloadList portal ac io url).map ModInfo.name

/-- The `ModInfo` the resolver produces for name `n`, version `v` and page
URL `u` at anti-cache token `"t"`, used by the concrete scenarios. -/
def infoOf (n v u : String) : ModInfo :=
  resolvedModInfo "t" ⟨n, v⟩ u false

/-- The tree resolved from `W_acyclic`'s root "uA". -/
def TREE_acyclic : DependencyTree :=
  .mk (infoOf "A" "1" "uA")
    [.mk (infoOf "B" "1" "uB") [.mk (infoOf "D" "1" "uD") []],
     .mk (infoOf "C" "1" "uC") []]

/-- The tree resolved from `W_brokenDep`'s root "uA": the failed branch B is
dropped, the sibling C is kept. -/
def TREE_brokenDep : DependencyTree :=
  .mk (infoOf "A" "1" "uA") [.mk (infoOf "C" "1" "uC") []]

/-- The tree resolved from `W_reserved`'s root "uA": the reserved
dependency "space-age" contributes no node. -/
def TREE_reserved : DependencyTree := .mk (infoOf "A" "1" "uA") []

/-- Attempt oracle where every attempt raises
`requests.exceptions.ConnectionError` (a `NETWORK`-categorized exception
that is an `OSError` instance), with a message naming the attempt. -/
def connErrOutcome : Nat → Option PyExc :=
  fun i => some (.reqConnectionError ("connection reset " ++ toString i))

/-- Attempt oracle where every attempt raises the custom `NetworkError`
(`ModDownloaderError`, not an `OSError` instance). -/
def netErrOutcome : Nat → Option PyExc :=
  fun i => some (NetworkError ("connection reset " ++ toString i) none)

/-- Attempt oracle where every attempt raises `ParsingError`. -/
def parsingOutcome : Nat → Option PyExc :=
  fun _ => some (ParsingError "Could not find mod name in page" none)

/-- Scenario mod for the orchestrator claims. -/
def M9 : ModInfo := ⟨"foo", "1.0", "uFoo", "dFoo", none, false⟩

/-- Transfer oracle that fails every transfer — so any mod recorded as
downloaded in these scenarios was necessarily skipped, not transferred. -/
def tr9 : String → TransferResult := fun _ => ⟨false, 0, some "network unreachable"⟩

/-- Fresh orchestrator whose destination directory already contains
`out/foo_1.0.zip`, the final artifact of `M9`. -/
def st9 : OrchestratorState := ⟨[], ["out/foo_1.0.zip"]⟩

/-! ## Claim theorems -/

/-- C1. For every acyclic dependency graph reachable from the root URL, the
list returned by `get_download_list(resolve_dependencies(root))` places
every dependency strictly before each mod that depends on it (post-order:
all of a node's children are appended before the node itself).

Acyclicity is formalised as `(postNames t).Nodup`: dependency URLs are
generated deterministically from the dependency's name
(`mod_info_fetcher.py` lines 230-240) and `analyzed_mods` prevents a URL
from producing two nodes, so a name labelling two nodes of the resolved
tree requires a name-cycle through the root; for an acyclic dependency
graph every name labels at most one node. `hasEdge t p c` states that mod
`p` depends on mod `c` in the resolved tree, and the conclusion
`List.Sublist [c, p] (downloadNames (some t))` states that `c` occurs
strictly before `p` in the download list. -/
theorem dependencies_precede_dependents
    (portal : ModPortal) (ac : String) (io : Bool) (url : String) (t : DependencyTree)
    (hres : (resolve_dependencies portal ac io url).1 = .ok (some t))
    (hacyclic : (postNames t).Nodup)
    (p c : String) (hedge : hasEdge t p c = true) :
    List.Sublist [c, p] (downloadNames (some t)) := by
  have hdl : get_download_list (some t) = postOrder t :=
    get_download_list_eq_postOrder t hacyclic
  have hnames : downloadNames (some t) = postNames t := by
    rw [downloadNames, hdl, postNames]
  rw [hnames]
  exact hasEdge_sublist t p c hedge

/-- Witness for C1, on the spec's own scenario: A requires B and C, B
requires D. The resolved list is `[D, B, C, A]`; applying the theorem to
the edges (B, D), (A, B) and (A, C) proves D before B, B before A, and C
before A. -/
theorem dependencies_precede_dependents_witness :
    (resolve_dependencies W_acyclic "t" false "uA").1 = .ok (some TREE_acyclic) ∧
    downloadNames (some TREE_acyclic) = ["D", "B", "C", "A"] ∧
    List.Sublist ["D", "B"] (downloadNames (some TREE_acyclic)) ∧
    List.Sublist ["B", "A"] (downloadNames (some TREE_acyclic)) ∧
    List.Sublist ["C", "A"] (downloadNames (some TREE_acyclic)) := by
  refine ⟨rfl, by decide, ?_, ?_, ?_⟩
  · exact dependencies_precede_dependents W_acyclic "t" false "uA" TREE_acyclic rfl
      (by decide) "B" "D" rfl
  · exact dependencies_precede_dependents W_acyclic "t" false "uA" TREE_acyclic rfl
      (by decide) "A" "B" rfl
  · exact dependencies_precede_dependents W_acyclic "t" false "uA" TREE_acyclic rfl
      (by decide) "A" "C" rfl

/-- C2. For every dependency graph containing a cycle, `resolve_dependencies`
terminates and the flattened download list contains each implicated mod
name exactly once. Conjuncts:

1. termination: at any fuel of at least `unvisitedCount + 1` the
   fuel-exhaustion flag of the embedding is untouched — the recursion
   bottoms out through the visited set alone, for cyclic graphs included;
2. in particular `resolve_dependencies` (which supplies fuel
   `pages.length + 1`) never exhausts fuel, on any portal;
3. a URL already in `analyzed_mods` is re-entered with no effect: it
   returns the `None` placeholder and contributes no subtree;
4. on the concrete cycle A→B→A the flattened list is `["B", "A"]`, with
   each implicated name appearing exactly once. -/
theorem resolver_terminates_on_cycles :
    (∀ (portal : ModPortal) (ac : String) (io : Bool) (fuel : Nat) (url : String)
        (iopt : Bool) (st : ResolveState),
      unvisitedCount portal st.visited + 1 ≤ fuel →
      (resolveRec portal ac io fuel url iopt st).2.fuelOut = st.fuelOut) ∧
    (∀ (portal : ModPortal) (ac : String) (io : Bool) (url : String),
      (resolve_dependencies portal ac io url).2.fuelOut = false) ∧
    (∀ (portal : ModPortal) (ac : String) (io : Bool) (fuel : Nat) (url : String)
        (iopt : Bool) (st : ResolveState), url ∈ st.visited →
      resolveRec portal ac io (fuel + 1) url iopt st = (.ok none, st)) ∧
    (resolvedDownloadNames W_cycle "t" false "uA" = ["B", "A"] ∧
     (resolvedDownloadNames W_cycle "t" false "uA").count "A" = 1 ∧
     (resolvedDownloadNames W_cycle "t" false "uA").count "B" = 1) := by
  refine ⟨?_, resolveRec_no_fuelOut, resolveRec_revisit, by decide, by decide, by decide⟩
  intro portal ac io fuel url iopt st h
  exact resolveRec_fuelOut portal ac io fuel url iopt st h

/-- Witness for C2: the termination bound and the revisit rule applied on
the concrete cyclic portal. -/
theorem resolver_terminates_on_cycles_witness :
    (resolveRec W_cycle "t" false 3 "uA" false ⟨[], [], false⟩).2.fuelOut = false ∧
    resolveRec W_cycle "t" false 1 "uA" false ⟨["uA"], [], false⟩ =
      (.ok none, ⟨["uA"], [], false⟩) := by
  constructor
  · exact resolver_terminates_on_cycles.1 W_cycle "t" false 3 "uA" false
      ⟨[], [], false⟩ (by decide)
  · exact resolver_terminates_on_cycles.2.2.1 W_cycle "t" false 0 "uA" false
      ⟨["uA"], [], false⟩ (by decide)

/-- C3. The download list returned by `get_download_list` contains no mod
name twice (first occurrence wins — for every tree, not just resolved
ones), never contains a name from the reserved set when the tree comes
from `resolve_dependencies`, and a reserved name resolves to "no subtree"
(`.ok none`) rather than a node or an error. -/
theorem download_list_no_duplicates_no_reserved :
    (∀ t? : Option DependencyTree, (downloadNames t?).Nodup) ∧
    (∀ (portal : ModPortal) (ac : String) (io : Bool) (url : String) (t : DependencyTree),
      (resolve_dependencies portal ac io url).1 = .ok (some t) →
      ∀ m ∈ get_download_list (some t), m.name ∉ RESERVED_DEPENDENCIES) ∧
    (∀ (portal : ModPortal) (ac : String) (io : Bool) (fuel : Nat) (url : String)
        (iopt : Bool) (st : ResolveState) (pd : PageData),
      url ∉ st.visited → portal.pages.lookup url = some pd →
      pd.name ≠ "" → pd.version ≠ "" → pd.name ∈ RESERVED_DEPENDENCIES →
      (resolveRec portal ac io (fuel + 1) url iopt st).1 = .ok none) := by
  refine ⟨downloadNames_nodup, ?_, ?_⟩
  · intro portal ac io url t hres m hm
    have heq : resolveRec portal ac io (portal.pages.length + 1) url false
        { visited := [], fetches := [], fuelOut := false } =
        (.ok (some t), (resolve_dependencies portal ac io url).2) :=
      Prod.ext hres rfl
    have htok := resolveRec_treeOk portal ac io (portal.pages.length + 1) url false
      { visited := [], fetches := [], fuelOut := false } t
      (resolve_dependencies portal ac io url).2 heq
    exact htok m (download_list_mem_postOrder t m hm)
  · intro portal ac io fuel url iopt st pd h hl hn hv hres
    have hbad : ¬(pd.name = "" ∨ pd.version = "") := by
      intro hx
      rcases hx with hx | hx
      · exact hn hx
      · exact hv hx
    rw [resolveRec_reserved portal ac io fuel url iopt st pd h hl hbad hres]

/-- Witness for C3: on the reserved-dependency scenario the resolved list
is `["A"]`, its sole entry is not reserved, and resolving the
"space-age" URL itself yields `.ok none`. -/
theorem download_list_no_duplicates_no_reserved_witness :
    (downloadNames (some TREE_acyclic)).Nodup ∧
    (infoOf "A" "1" "uA").name ∉ RESERVED_DEPENDENCIES ∧
    (resolveRec W_reserved "t" false 1 "uS" false ⟨[], [], false⟩).1 = .ok none := by
  refine ⟨download_list_no_duplicates_no_reserved.1 (some TREE_acyclic), ?_, ?_⟩
  · exact download_list_no_duplicates_no_reserved.2.1 W_reserved "t" false "uA"
      TREE_reserved rfl (infoOf "A" "1" "uA") (by decide)
  · exact download_list_no_duplicates_no_reserved.2.2 W_reserved "t" false 0 "uS"
      false ⟨[], [], false⟩ ⟨"space-age", "2"⟩ (by decide) rfl
      (by decide) (by decide) (by decide)

/-- C4 (code bug, evaluation at the failing input). When every attempt
fails with `requests.exceptions.ConnectionError` — a `NETWORK`-classified,
retryable error — `download_file` with `max_retries = 3` and
`retry_delay = 2` performs 3 attempts and returns the last attempt's
message, but performs NO retry-delay sleep: because requests exceptions
subclass `OSError`, they are caught by the `except (PermissionError,
OSError)` clause (`file_downloader.py` line 218), whose non-filesystem
path falls through to the next iteration (line 230) without ever reaching
the `time.sleep(self.config.retry_delay)` at line 260. The custom
`NetworkError` (not an `OSError`) does reach that sleep, as the last
conjunct shows — the sleeping retry path exists but is bypassed for every
network error `requests` can raise. -/
theorem network_retry_missing_sleep :
    download_with_retry 3 2 connErrOutcome =
      { success := false, error := some "connection reset 3", attempts := 3, sleeps := [] } ∧
    download_file 3 2 connErrOutcome =
      { success := false, error := some "connection reset 3" } ∧
    categorize_error (.reqConnectionError "connection reset 1") = .network ∧
    is_retryable_error (.reqConnectionError "connection reset 1") = true ∧
    isOSErrorInstance (.reqConnectionError "connection reset 1") = true ∧
    download_with_retry 3 2 netErrOutcome =
      { success := false, error := some "connection reset 3", attempts := 3,
        sleeps := [2, 2] } :=
  ⟨rfl, rfl, rfl, rfl, rfl, rfl⟩

/-- C5. A download whose first attempt fails with a `FILESYSTEM`-classified
error makes exactly one attempt: no retry, no retry-delay sleep, immediate
failure. The hypothesis `is_retryable_error e = false` holds for every
filesystem error this program can produce: raw `PermissionError` /
`OSError` instances are not in the retryable list, and the
`FileSystemError` class always sets `retryable=False` (`errors.py` lines
97-115). -/
theorem filesystem_fail_fast (max_retries retry_delay : Nat)
    (outcome : Nat → Option PyExc) (e : PyExc)
    (hmax : 1 ≤ max_retries) (h1 : outcome 1 = some e)
    (hcat : categorize_error e = .filesystem) (hret : is_retryable_error e = false) :
    (download_with_retry max_retries retry_delay outcome).attempts = 1 ∧
    (download_with_retry max_retries retry_delay outcome).sleeps = [] ∧
    (download_with_retry max_retries retry_delay outcome).success = false ∧
    download_file max_retries retry_delay outcome =
      { success := false
        error := some (if isOSErrorInstance e then "Filesystem error: " ++ e.str
                       else e.str) } := by
  have h := download_with_retry_first_filesystem max_retries retry_delay outcome e
    hmax h1 hcat hret
  refine ⟨by rw [h], by rw [h], by rw [h], ?_⟩
  rw [download_file, h]
  rfl

/-- Witness for C5: a raw `PermissionError` on the first attempt, with
`max_retries = 3`; one attempt, no sleep, immediate failure. -/
theorem filesystem_fail_fast_witness :
    (download_with_retry 3 2 (fun _ => some (PyExc.permissionError "Permission denied"))).attempts = 1 ∧
    (download_with_retry 3 2 (fun _ => some (PyExc.permissionError "Permission denied"))).sleeps = [] ∧
    (download_with_retry 3 2 (fun _ => some (PyExc.permissionError "Permission denied"))).success = false ∧
    download_file 3 2 (fun _ => some (PyExc.permissionError "Permission denied")) =
      { success := false
        error := some (if isOSErrorInstance (PyExc.permissionError "Permission denied")
                       then "Filesystem error: " ++ (PyExc.permissionError "Permission denied").str
                       else (PyExc.permissionError "Permission denied").str) } :=
  filesystem_fail_fast 3 2 (fun _ => some (PyExc.permissionError "Permission denied"))
    (PyExc.permissionError "Permission denied") (by decide) rfl rfl rfl

/-- C6 (code bug, evaluation at the failing input). `ParsingError`'s own
docstring says parsing errors "are retryable once after a delay"
(`errors.py` line 121), and the spec says they are retried exactly once.
But the class only records the boolean `retryable=True`, and no code path
implements a once-only limit: `_download_with_retry` retries any retryable
error until `max_retries` is exhausted, so with the default
`max_retries = 3` a persistent `ParsingError` is attempted 3 times (two
retries, two sleeps), not 2 (one retry); and the dependency resolver,
where `ParsingError` is actually raised, performs no retry at all. -/
theorem parsing_retried_up_to_max :
    download_with_retry 3 2 parsingOutcome =
      { success := false, error := some "Could not find mod name in page", attempts := 3,
        sleeps := [2, 2] } ∧
    categorize_error (ParsingError "Could not find mod name in page" none) = .parsing ∧
    is_retryable_error (ParsingError "Could not find mod name in page" none) = true :=
  ⟨rfl, rfl, rfl⟩

/-- C7. Failure semantics of one resolution call: a fetch failure at the
root URL propagates to the caller as an error; while whenever the root page
itself is fetchable and parseable (non-reserved, nonempty name and
version), `resolve_dependencies` returns `.ok` with a tree — for EVERY
portal, i.e. no matter which dependency fetches fail, because the
dependency loop catches each child's exception and continues with the
siblings. The third conjunct shows this on the concrete portal where B's
fetch fails: the branch is dropped, sibling C survives, and resolution
still succeeds with the partial tree. -/
theorem resolver_failure_semantics :
    (∀ (portal : ModPortal) (ac : String) (io : Bool) (url : String),
      portal.pages.lookup url = none →
      (resolve_dependencies portal ac io url).1 =
        .error ("Failed to load page: " ++ url)) ∧
    (∀ (portal : ModPortal) (ac : String) (io : Bool) (url : String) (pd : PageData),
      portal.pages.lookup url = some pd →
      pd.name ≠ "" → pd.version ≠ "" → pd.name ∉ RESERVED_DEPENDENCIES →
      ∃ t, (resolve_dependencies portal ac io url).1 = .ok (some t) ∧
        t.rootName = pd.name) ∧
    ((resolve_dependencies W_brokenDep "t" false "uA").1 = .ok (some TREE_brokenDep) ∧
      resolvedDownloadNames W_brokenDep "t" false "uA" = ["C", "A"]) := by
  refine ⟨?_, ?_, rfl, by decide⟩
  · intro portal ac io url hl
    have h := resolveRec_fetch_fail portal ac io portal.pages.length url false
      { visited := [], fetches := [], fuelOut := false } (by simp) hl
    show (resolveRec portal ac io (portal.pages.length + 1) url false
      { visited := [], fetches := [], fuelOut := false }).1 = _
    rw [h]
  · intro portal ac io url pd hl hn hv hres
    obtain ⟨ts, st', h⟩ := resolveRec_root_ok portal ac io portal.pages.length url false
      { visited := [], fetches := [], fuelOut := false } pd (by simp) hl hn hv hres
    refine ⟨.mk (resolvedModInfo ac pd url false) ts, ?_, rfl⟩
    show (resolveRec portal ac io (portal.pages.length + 1) url false
      { visited := [], fetches := [], fuelOut := false }).1 = _
    rw [h]

/-- Witness for C7: the root-failure conjunct on a URL absent from the
portal, and the root-success conjunct on `W_brokenDep` (whose dependency B
does fail). -/
theorem resolver_failure_semantics_witness :
    (resolve_dependencies W_brokenDep "t" false "uMissing").1 =
      .error ("Failed to load page: " ++ "uMissing") ∧
    ∃ t, (resolve_dependencies W_brokenDep "t" false "uA").1 = .ok (some t) ∧
      t.rootName = "A" := by
  constructor
  · exact resolver_failure_semantics.1 W_brokenDep "t" false "uMissing" rfl
  · exact resolver_failure_semantics.2.1 W_brokenDep "t" false "uA" ⟨"A", "1"⟩ rfl
      (by decide) (by decide) (by decide)

/-- C10 (implicit claim). Within a single `resolve_dependencies` call a URL
is added to `analyzed_mods` before its page is fetched, so:

1. after any attempt to resolve a fresh URL — even one that fails — the
   URL is in `analyzed_mods`;
2. a later edge to a URL already in `analyzed_mods` is silently skipped:
   it returns the `None` placeholder, contributes no node, performs no new
   fetch, and leaves the state untouched;
3. hence no URL is ever fetched twice in one top-level call (the ghost
   fetch log is duplicate-free, for every portal and root);
4. on the concrete portal where A requires B and C, C requires B, and B's
   fetch fails: B is fetched exactly once (fetch log `[uA, uB, uC]`), and
   B appears nowhere in the download list even though C requires it. -/
theorem failed_url_never_reattempted :
    (∀ (portal : ModPortal) (ac : String) (io : Bool) (fuel : Nat) (url : String)
        (iopt : Bool) (st : ResolveState), url ∉ st.visited →
      url ∈ (resolveRec portal ac io (fuel + 1) url iopt st).2.visited) ∧
    (∀ (portal : ModPortal) (ac : String) (io : Bool) (fuel : Nat) (url : String)
        (iopt : Bool) (st : ResolveState), url ∈ st.visited →
      (resolveRec portal ac io (fuel + 1) url iopt st).1 = .ok none ∧
      (resolveRec portal ac io (fuel + 1) url iopt st).2 = st) ∧
    (∀ (portal : ModPortal) (ac : String) (io : Bool) (url : String),
      ((resolve_dependencies portal ac io url).2.fetches).Nodup) ∧
    ((resolve_dependencies W_shared "t" false "uA").2.fetches = ["uA", "uB", "uC"] ∧
      resolvedDownloadNames W_shared "t" false "uA" = ["C", "A"]) := by
  refine ⟨resolveRec_visits, ?_, ?_, by decide, by decide⟩
  · intro portal ac io fuel url iopt st h
    rw [resolveRec_revisit portal ac io fuel url iopt st h]
    exact ⟨rfl, rfl⟩
  · intro portal ac io url
    obtain ⟨-, fl, hf, nd, -⟩ := resolveRec_stOk portal ac io (portal.pages.length + 1)
      url false { visited := [], fetches := [], fuelOut := false }
    have : (resolve_dependencies portal ac io url).2.fetches = fl := by
      simpa using hf
    rw [this]
    exact nd

/-- Witness for C10: a failing URL stays visited, and a revisited URL is a
no-op, on the shared-failed-dependency portal. -/
theorem failed_url_never_reattempted_witness :
    "uB" ∈ (resolveRec W_shared "t" false 2 "uB" false ⟨["uA"], ["uA"], false⟩).2.visited ∧
    ((resolveRec W_shared "t" false 2 "uB" false ⟨["uB", "uA"], ["uA", "uB"], false⟩).1 =
        .ok none ∧
      (resolveRec W_shared "t" false 2 "uB" false ⟨["uB", "uA"], ["uA", "uB"], false⟩).2 =
        ⟨["uB", "uA"], ["uA", "uB"], false⟩) := by
  constructor
  · exact failed_url_never_reattempted.1 W_shared "t" false 1 "uB" false
      ⟨["uA"], ["uA"], false⟩ (by decide)
  · exact failed_url_never_reattempted.2.1 W_shared "t" false 1 "uB" false
      ⟨["uB", "uA"], ["uA", "uB"], false⟩ (by decide)

/-- C8 (code bug, evaluation of the write path). The transfer code writes
bytes of a not-yet-complete artifact DIRECTLY to the final destination
path, never to a `.part` file: the only artifact-file operation of an
attempt body is opening `output_path` itself (`file_downloader.py` line
189), no operation ever touches `get_partial_path output_path`
(`<path>.part`, which is a genuinely different path), and no rename occurs
anywhere in `_download_with_retry` — `RecoveryManager.finalize_download`,
which performs the rename-on-success protocol, has no caller in the
repository. Hence an incomplete artifact DOES exist under its final name
during (and, on failure, after) a transfer. -/
theorem transfer_writes_final_path :
    (∀ (p : String) (r : Nat),
      attemptFileOps p r = [FsOp.openWrite p (decide (0 < r))]) ∧
    (∀ (p : String) (r : Nat) (s d : String),
      FsOp.renameFile s d ∉ attemptFileOps p r) ∧
    (∀ (p : String) (r : Nat) (b : Bool),
      FsOp.openWrite (get_partial_path p) b ∉ attemptFileOps p r) ∧
    (∀ p : String, get_partial_path p ≠ p) ∧
    (attemptFileOps "mods/foo_1.0.zip" 0 = [FsOp.openWrite "mods/foo_1.0.zip" false] ∧
      get_partial_path "mods/foo_1.0.zip" = "mods/foo_1.0.zip.part" ∧
      finalize_download (get_partial_path "mods/foo_1.0.zip") "mods/foo_1.0.zip" false =
        [FsOp.renameFile "mods/foo_1.0.zip.part" "mods/foo_1.0.zip"]) := by
  have hne : ∀ p : String, get_partial_path p ≠ p := by
    intro p h
    have hlen := congrArg String.length h
    rw [get_partial_path, String.length_append] at hlen
    have h5 : PART_EXTENSION.length = 5 := rfl
    omega
  refine ⟨fun p r => rfl, ?_, ?_, hne, rfl, rfl, rfl⟩
  · intro p r s d h
    simp [attemptFileOps] at h
  · intro p r b h
    simp only [attemptFileOps, List.mem_singleton, FsOp.openWrite.injEq] at h
    exact hne p h.1

/-- C9 counterexample. `M9`'s final artifact `out/foo_1.0.zip` already
exists in the destination `st9`. The first `download_mod` call reports it
in `downloaded_mods`; but the SECOND call on the same `CoreDownloader`
instance hits the `file_name in self.downloaded_mods` guard
(`downloader.py` lines 128-130), which `continue`s without appending to
`downloaded` — the repeated call reports the mod neither as downloaded nor
as failed (no transfer is performed either), refuting the claim that on
repeated calls the mod "appears in downloaded_mods". -/
theorem second_call_skip_not_reported_cex :
    joinPath "out" (fileNameOf M9) ∈ st9.files ∧
    (download_mod tr9 "out" [M9] st9).2.downloaded = ["foo_1.0.zip"] ∧
    (download_mod tr9 "out" [M9] (download_mod tr9 "out" [M9] st9).1).2.downloaded = [] ∧
    "foo_1.0.zip" ∉
      (downloadResult
        (download_mod tr9 "out" [M9] (download_mod tr9 "out" [M9] st9).1).2).downloaded_mods ∧
    (download_mod tr9 "out" [M9] (download_mod tr9 "out" [M9] st9).1).2.transfers = [] ∧
    (downloadResult
      (download_mod tr9 "out" [M9] (download_mod tr9 "out" [M9] st9).1).2).success = true := by
  refine ⟨by decide, by decide, by decide, by decide, by decide, by decide⟩

/-- C9 as amended. In `download_mod`'s per-mod loop: a mod whose final
artifact already exists on disk AND whose file name is not yet in the
instance's in-memory `downloaded_mods` set is reported as already-present —
appended to `downloaded` (counting toward success), contributing 0 bytes,
with no transfer performed and no failure recorded; a mod whose file name
IS already in the in-memory set is skipped silently — no transfer, no
failure, but also no entry in the result's `downloaded_mods`. -/
theorem skip_reporting_amended (transfer : String → TransferResult) (out : String)
    (m : ModInfo) (st : OrchestratorState) (acc : RunAccum) :
    (fileNameOf m ∉ st.downloadedMods → joinPath out (fileNameOf m) ∈ st.files →
      processMod transfer out (st, acc) m =
        ({ st with downloadedMods := fileNameOf m :: st.downloadedMods },
         { acc with downloaded := acc.downloaded ++ [fileNameOf m] })) ∧
    (fileNameOf m ∈ st.downloadedMods → processMod transfer out (st, acc) m = (st, acc)) := by
  constructor
  · intro h1 h2
    simp [processMod, h1, h2]
  · intro h1
    simp [processMod, h1]

/-- Witness for the amended C9: the existing-file path reports the mod with
no transfer; the already-recorded path is a silent no-op. -/
theorem skip_reporting_amended_witness :
    processMod tr9 "out" (st9, ⟨[], [], 0, []⟩) M9 =
      ({ st9 with downloadedMods := fileNameOf M9 :: st9.downloadedMods },
       { downloaded := [fileNameOf M9], failed := [], totalSize := 0, transfers := [] }) ∧
    processMod tr9 "out" (⟨["foo_1.0.zip"], ["out/foo_1.0.zip"]⟩, ⟨[], [], 0, []⟩) M9 =
      (⟨["foo_1.0.zip"], ["out/foo_1.0.zip"]⟩, ⟨[], [], 0, []⟩) := by
  constructor
  · exact (skip_reporting_amended tr9 "out" M9 st9 ⟨[], [], 0, []⟩).1
      (by decide) (by decide)
  · exact (skip_reporting_amended tr9 "out" M9
      ⟨["foo_1.0.zip"], ["out/foo_1.0.zip"]⟩ ⟨[], [], 0, []⟩).2 (by decide)

end FactorioModDownloader
